import Mathlib

set_option autoImplicit false

namespace HyperProcModel

/-!  Shallow embedding of the `hyperproc` library: the state predicate
`HyperProc.isState`, the normalized error type `HyperProcError`, the
pipeline engine `HyperProc` with its operation queue, and the `run`
interpreter, translated from `src/unnamed/part_001` (the engine),
`src/src/HyperProcError/index.js` (the error type) and
`src/unnamed/part_000` (the `HyperSubProc` bubbling variant).  -/

/-- Prototype of a JavaScript object: the base `Object.prototype`, `null`,
or some other prototype (class instances, Map/Set, Array.prototype, ...). -/
inductive Proto where
| base
| nullProto
| other (nm : String)
deriving DecidableEq, Repr

/-- JavaScript values as the library manipulates them.  Objects carry an
identity tag `ref` modelling reference identity, an `isArr` flag modelling
the internal array slot tested by `Array.isArray`, a prototype and an
ordered own-property list. -/
inductive JSValue where
| undefined
| jsNull
| num (n : Int)
| str (s : String)
| boolean (b : Bool)
| object (ref : Nat) (isArr : Bool) (proto : Proto) (fields : List (String × JSValue))

/-- JavaScript `typeof value === "object"`: true for `null` and every object. -/
def typeofObject : JSValue → Bool
| .jsNull => true
| .object _ _ _ _ => true
| _ => false

/-- JavaScript `value === null`. -/
def isNullV : JSValue → Bool
| .jsNull => true
| _ => false

/-- JavaScript `Array.isArray(value)` (tests the internal array slot). -/
def isArrayV : JSValue → Bool
| .object _ isArr _ _ => isArr
| _ => false

/-- JavaScript `Object.getPrototypeOf(value)`, meaningful on objects only. -/
def protoOf : JSValue → Option Proto
| .object _ _ p _ => some p
| _ => none

/-- `HyperProc.isState`, translated from `src/unnamed/part_001` lines 175-181:
`value !== null && typeof value === "object" && !Array.isArray(value)` and then
the direct prototype must be `Object.prototype` or `null`. -/
def isState (value : JSValue) : Bool :=
  if !(isNullV value) && typeofObject value && !(isArrayV value) then
    match protoOf value with
    | some proto => proto == .base || proto == .nullProto
    | none => false
  else
    false

/-- `Object.prototype.hasOwnProperty.call` on an own-property list. -/
def hasOwn : List (String × JSValue) → String → Bool
| [], _ => false
| (k, _) :: rest, id => k == id || hasOwn rest id

/-- Own-property read; a missing key reads as `undefined`. -/
def getOwn : List (String × JSValue) → String → JSValue
| [], _ => .undefined
| (k, v) :: rest, id => if k == id then v else getOwn rest id

/-- Own-property write: updates an existing key in place, appends a new key. -/
def setOwn : List (String × JSValue) → String → JSValue → List (String × JSValue)
| [], id, v => [(id, v)]
| (k, w) :: rest, id, v => if k == id then (k, v) :: rest else (k, w) :: setOwn rest id v

/-- `Object.prototype.hasOwnProperty.call(state, id)` on a value. -/
def hasOwnV : JSValue → String → Bool
| .object _ _ _ fs, id => hasOwn fs id
| _, _ => false

/-- `state[id]` read on a value. -/
def getOwnV : JSValue → String → JSValue
| .object _ _ _ fs, id => getOwn fs id
| _, _ => .undefined

/-- `state[id] = v`: mutates the own-property list, keeping the identity tag. -/
def setOwnV : JSValue → String → JSValue → JSValue
| .object r a p fs, id, v => .object r a p (setOwn fs id v)
| s, _, _ => s

/-- Identity tag of an object value (reference identity). -/
def refOf : JSValue → Option Nat
| .object r _ _ _ => some r
| _ => none

/-- The five operation-tag symbols of `HyperProc`, plus `other` for a tag the
switch statement does not recognise (the `default:` branch). -/
inductive OpTag where
| APPLY_TO
| TRANSFORM
| AUGMENT
| CHAIN
| NOOP
| other (desc : String)
deriving DecidableEq, Repr

/-- Description string of an operation-tag symbol. -/
def symDesc : OpTag → String
| .APPLY_TO => "APPLY_TO"
| .TRANSFORM => "TRANSFORM"
| .AUGMENT => "AUGMENT"
| .CHAIN => "CHAIN"
| .NOOP => "NOOP"
| .other d => d

/-- JavaScript `String(symbol)`. -/
def symStr (t : OpTag) : String := "Symbol(" ++ symDesc t ++ ")"

/-- `String(op ?? "UNDEFINED")` from the `HyperProcError` constructor
(`src/src/HyperProcError/index.js` line 9). -/
def opString : Option OpTag → String
| none => "UNDEFINED"
| some t => symStr t

/-- Throwable values: plain `TypeError`s, generic named errors, and the
normalized `HyperProcError` (message, stringified op, optional id, optional
non-enumerable state snapshot, optional cause). -/
inductive JSError where
| typeError (message : String)
| error (nm : String) (message : String)
| hpe (message : String) (op : String) (id : Option String)
      (state : Option JSValue) (cause : Option JSError)

/-- `err.name`. -/
def errName : JSError → String
| .typeError _ => "TypeError"
| .error n _ => n
| .hpe _ _ _ _ _ => "HyperProcError"

/-- `err.message`. -/
def errMessage : JSError → String
| .typeError m => m
| .error _ m => m
| .hpe m _ _ _ _ => m

/-- `err instanceof HyperProcError`. -/
def isHyperProcError : JSError → Bool
| .hpe _ _ _ _ _ => true
| _ => false

/-- The `HyperProcError` constructor
(`src/src/HyperProcError/index.js` lines 5-29): stores the message, the
stringified op (`"UNDEFINED"` when absent), the id, the state (as a
non-enumerable own attribute) and the cause. -/
def mkHPE (message : String) (op : Option OpTag) (id : Option String)
    (state : Option JSValue) (cause : Option JSError) : JSError :=
  .hpe message (opString op) id state cause

/-- `HyperProcError.from(err, {op, id, state})`
(`src/src/HyperProcError/index.js` lines 62-64): wraps an existing error,
keeping its message and attaching it as the cause. -/
def hpeFrom (err : JSError) (op : Option OpTag) (id : Option String)
    (state : Option JSValue) : JSError :=
  mkHPE (errMessage err) op id state (some err)

/-- The serialized view of a cause: exactly a name and a message. -/
structure CauseJSON where
  nm : String
  message : String
deriving Repr, DecidableEq

/-- The serialized view of a `HyperProcError`: exactly name, message, op, id
and (reduced) cause; no state field exists in this view. -/
structure ErrJSON where
  nm : String
  message : String
  op : String
  id : Option String
  cause : Option CauseJSON
deriving Repr, DecidableEq

/-- `HyperProcError.toJSON` (`src/src/HyperProcError/index.js` lines 39-47):
returns the five-field literal, reducing the cause to its name and message;
only `HyperProcError`s carry this method. -/
def toJSON : JSError → Option ErrJSON
| .hpe m op id _ cause =>
    some ⟨"HyperProcError", m, op, id, cause.map (fun c => ⟨errName c, errMessage c⟩)⟩
| _ => none

mutual

/-- The function stored in an operation record: a two-argument async function
(`applyTo`, `augment`, `noop`, `log`), a three-argument one (`transform`), or a
nested engine (`chain`).  Results model the settled promise: a value or a
thrown/rejected error. -/
inductive OpFn where
| f2 (f : JSValue → JSValue → Except JSError JSValue)
| f3 (f : JSValue → JSValue → JSValue → Except JSError JSValue)
| engine (hp : HyperProc)

/-- An operation record `{id?, fn, op}` as pushed by the builder methods. -/
inductive OpRec where
| mk (id : Option String) (op : OpTag) (fn : OpFn)

/-- The engine: environment `_env`, recovery handler `_onError`, queue `_ops`
(`src/unnamed/part_001` lines 14-22). -/
inductive HyperProc where
| mk (env : JSValue)
     (onErr : JSError → JSValue → JSValue → Except JSError JSValue)
     (ops : List OpRec)

end

/-- `this._env`. -/
def HyperProc.env : HyperProc → JSValue
| .mk e _ _ => e

/-- `this._onError`. -/
def HyperProc.onErr : HyperProc → (JSError → JSValue → JSValue → Except JSError JSValue)
| .mk _ f _ => f

/-- `this._ops`. -/
def HyperProc.ops : HyperProc → List OpRec
| .mk _ _ l => l

/-- Observable events of a `run` call: an operation function being invoked
(with its argument list), or a recovery handler being invoked with
`(normalizedError, stateAtFailure, env)`. -/
inductive Event where
| opCall (op : OpTag) (id : Option String) (args : List JSValue)
| handlerCall (err : JSError) (state : JSValue) (env : JSValue)

/-- Calling a stored op function with two arguments, `fn(state, env)`: a
three-parameter function receives `undefined` for its third parameter, and a
non-function (a stored engine) raises a `TypeError`. -/
def callFn2 : OpFn → JSValue → JSValue → Except JSError JSValue
| .f2 f, s, e => f s e
| .f3 f, s, e => f s e .undefined
| .engine _, _, _ => .error (.typeError "fn is not a function")

/-- Calling a stored op function with three arguments, `fn(value, state, env)`:
a two-parameter function ignores the third argument. -/
def callFn3 : OpFn → JSValue → JSValue → JSValue → Except JSError JSValue
| .f2 f, v, s, _ => f v s
| .f3 f, v, s, e => f v s e
| .engine _, _, _, _ => .error (.typeError "fn is not a function")

/-- The property key read or written for a record id: destructuring a record
without an `id` yields `undefined`, and `state[undefined]` uses the key
`"undefined"`. -/
def keyOf : Option String → String
| some s => s
| none => "undefined"

/-- Outcome of the `for...of` loop inside `run`: normal exhaustion with the
final state, or a raised error together with the loop's `state` variable and
the in-flight record's `spec = {id, op}` at the moment of the throw. -/
inductive LoopRes where
| done (state : JSValue)
| raised (err : JSError) (stateAtFailure : JSValue) (id : Option String) (op : OpTag)

mutual

/-- `HyperProc.run` (`src/unnamed/part_001` lines 97-160): validate the input
state, interpret the queue, and on a raised error normalize it and route it
through `this._onError` exactly once, validating the handler's result.  Also
returns the trace of op-function and handler invocations. -/
def HyperProc.run : HyperProc → JSValue → Except JSError JSValue × List Event
| .mk env onErr ops, state =>
  if isState state then
    match interp env ops state with
    | (.done s, tr) => (.ok s, tr)
    | (.raised err stF id op, tr) =>
      let e := if isHyperProcError err then err else hpeFrom err (some op) id (some stF)
      match onErr e stF env with
      | .error rethrow => (.error rethrow, tr ++ [.handlerCall e stF env])
      | .ok result =>
        let st2 := match result with
          | .undefined => stF
          | r => r
        if isState st2 then (.ok st2, tr ++ [.handlerCall e stF env])
        else (.error (.typeError "HyperProc.onError must return UNDEFINED or an OBJECT as state"),
              tr ++ [.handlerCall e stF env])
  else (.error (.typeError "HyperProc.run expects an OBJECT as state"), [])
termination_by hp _ => sizeOf hp

/-- The `for...of` loop of `run` (`src/unnamed/part_001` lines 107-142): one
switch dispatch per record, stopping at the first raised error. -/
def interp (env : JSValue) : List OpRec → JSValue → LoopRes × List Event
| [], state => (.done state, [])
| .mk id op fn :: rest, state =>
  match op with
  | .APPLY_TO =>
    match callFn2 fn state env with
    | .error e => (.raised e state id op, [.opCall op id [state, env]])
    | .ok next =>
      if isState next then
        let r := interp env rest next
        (r.1, .opCall op id [state, env] :: r.2)
      else
        (.raised (.typeError "HyperProc.applyTo must return an OBJECT as state") state id op,
         [.opCall op id [state, env]])
  | .TRANSFORM =>
    if hasOwnV state (keyOf id) then
      match callFn3 fn (getOwnV state (keyOf id)) state env with
      | .error e => (.raised e state id op, [.opCall op id [getOwnV state (keyOf id), state, env]])
      | .ok v =>
        let r := interp env rest (setOwnV state (keyOf id) v)
        (r.1, .opCall op id [getOwnV state (keyOf id), state, env] :: r.2)
    else
      (.raised (mkHPE ("HyperProc.transform missing property \"" ++ keyOf id ++ "\"")
          (some op) id none none) state id op, [])
  | .AUGMENT =>
    if hasOwnV state (keyOf id) then
      (.raised (mkHPE ("HyperProc.augment property \"" ++ keyOf id ++ "\" already exists")
          (some op) id none none) state id op, [])
    else
      match callFn2 fn state env with
      | .error e => (.raised e state id op, [.opCall op id [state, env]])
      | .ok v =>
        let r := interp env rest (setOwnV state (keyOf id) v)
        (r.1, .opCall op id [state, env] :: r.2)
  | .CHAIN =>
    match fn with
    | .engine child =>
      let r := HyperProc.run child state
      match r.1 with
      | .error e => (.raised e state id op, r.2)
      | .ok next =>
        if isState next then
          let r2 := interp env rest next
          (r2.1, r.2 ++ r2.2)
        else
          (.raised (.typeError "HyperProc.chain must return an OBJECT as state") state id op, r.2)
    | _ => (.raised (.typeError "fn.run is not a function") state id op, [])
  | .NOOP =>
    match callFn2 fn state env with
    | .error e => (.raised e state id op, [.opCall op id [state, env]])
    | .ok _ =>
      let r := interp env rest state
      (r.1, .opCall op id [state, env] :: r.2)
  | .other d =>
    (.raised (mkHPE ("Unknown Operation: " ++ symStr (.other d)) (some (.other d)) id
        (some state) none) state id op, [])
termination_by ops _ => sizeOf ops

end

/-- The default recovery handler installed by the constructor
(`src/unnamed/part_001` lines 18-21): log the error and return the last good
state unchanged (console output is not modelled). -/
def defaultOnError : JSError → JSValue → JSValue → Except JSError JSValue :=
  fun _ state _ => .ok state

/-- The `HyperSubProc` recovery handler (`src/unnamed/part_000`, class
`HyperSubProc`): immediately rethrow the error it receives. -/
def bubbleOnError : JSError → JSValue → JSValue → Except JSError JSValue :=
  fun err _ _ => .error err

/-- `new HyperProc(env)` / `HyperProc.init(env)`: empty queue, default
swallow-and-log handler. -/
def HyperProc.init (env : JSValue) : HyperProc :=
  .mk env defaultOnError []

/-- `new HyperSubProc(env)` / `HyperSubProc.init(env)`: same engine with the
rethrowing handler pre-installed. -/
def HyperSubProc.init (env : JSValue) : HyperProc :=
  .mk env bubbleOnError []

/-- `applyTo(fn)`: pushes `{fn, op: APPLY_TO}` and returns the engine. -/
def HyperProc.applyTo : HyperProc → (JSValue → JSValue → Except JSError JSValue) → HyperProc
| .mk env f ops, fn => .mk env f (ops ++ [.mk none .APPLY_TO (.f2 fn)])

/-- `transform(id, fn)`: pushes `{id, fn, op: TRANSFORM}`. -/
def HyperProc.transform : HyperProc → String →
    (JSValue → JSValue → JSValue → Except JSError JSValue) → HyperProc
| .mk env f ops, id, fn => .mk env f (ops ++ [.mk (some id) .TRANSFORM (.f3 fn)])

/-- `augment(id, fn)`: pushes `{id, fn, op: AUGMENT}`. -/
def HyperProc.augment : HyperProc → String →
    (JSValue → JSValue → Except JSError JSValue) → HyperProc
| .mk env f ops, id, fn => .mk env f (ops ++ [.mk (some id) .AUGMENT (.f2 fn)])

/-- `noop(fn)`: pushes `{fn, op: NOOP}`. -/
def HyperProc.noop : HyperProc → (JSValue → JSValue → Except JSError JSValue) → HyperProc
| .mk env f ops, fn => .mk env f (ops ++ [.mk none .NOOP (.f2 fn)])

/-- `onError(fn)`: replaces the recovery handler (last call wins). -/
def HyperProc.onError : HyperProc → (JSError → JSValue → JSValue → Except JSError JSValue) →
    HyperProc
| .mk env _ ops, fn => .mk env fn ops

/-- `log(arg)` with a function argument: pushes a `NOOP` record whose function
awaits `arg(state, env)` and prints it, producing `undefined`. -/
def HyperProc.logF : HyperProc → (JSValue → JSValue → Except JSError JSValue) → HyperProc
| .mk env f ops, arg =>
  .mk env f (ops ++ [.mk none .NOOP (.f2 (fun s e => (arg s e).map (fun _ => .undefined)))])

/-- `log(arg)` with a non-function argument: pushes a `NOOP` record whose
function prints the argument as-is and produces `undefined`. -/
def HyperProc.logS : HyperProc → JSValue → HyperProc
| .mk env f ops, _ => .mk env f (ops ++ [.mk none .NOOP (.f2 (fun _ _ => .ok .undefined))])

/-- A candidate argument to `chain`: either an actual engine instance or some
other value (which fails the `instanceof HyperProc` test). -/
inductive ChainArg where
| engine (hp : HyperProc)
| value (v : JSValue)

/-- `chain(hyperProc)` (`src/unnamed/part_001` lines 84-92): throws a plain
`TypeError` at call time when the argument is not an engine instance,
otherwise pushes `{fn: hyperProc, op: CHAIN}`. -/
def HyperProc.chain : HyperProc → ChainArg → Except JSError HyperProc
| _, .value _ => .error (.typeError "Can only chain to an instance of HyperProc")
| .mk env f ops, .engine child => .ok (.mk env f (ops ++ [.mk none .CHAIN (.engine child)]))

/-- The `id` field of a record. -/
def OpRec.recId : OpRec → Option String
| .mk id _ _ => id

/-- The `op` tag of a record. -/
def OpRec.recOp : OpRec → OpTag
| .mk _ op _ => op

/-- Error normalization performed in `run`'s catch block: keep a
`HyperProcError` as is, otherwise wrap via `HyperProcError.from` attaching the
in-flight `spec = {id, op}` and the state at failure. -/
def normalizeE (err : JSError) (stF : JSValue) (id : Option String) (op : OpTag) : JSError :=
  if isHyperProcError err then err else hpeFrom err (some op) id (some stF)

/-!  Proof layer: a one-record view of the loop, and the structural lemmas the
claims rest on.  -/

/-- Result of executing a single record against the current state: advance to
a new state, or raise an error. -/
inductive StepRes where
| next (state : JSValue)
| raise (err : JSError)

/-- One iteration of the run loop, in isolation: exactly the switch body of
`run` for a single record, paired with the events it emits.  `interp_cons`
proves that the loop is this step followed by the loop on the rest. -/
def step (env : JSValue) : OpRec → JSValue → StepRes × List Event
| .mk id op fn, state =>
  match op with
  | .APPLY_TO =>
    match callFn2 fn state env with
    | .error e => (.raise e, [.opCall op id [state, env]])
    | .ok next =>
      if isState next then (.next next, [.opCall op id [state, env]])
      else (.raise (.typeError "HyperProc.applyTo must return an OBJECT as state"),
            [.opCall op id [state, env]])
  | .TRANSFORM =>
    if hasOwnV state (keyOf id) then
      match callFn3 fn (getOwnV state (keyOf id)) state env with
      | .error e => (.raise e, [.opCall op id [getOwnV state (keyOf id), state, env]])
      | .ok v => (.next (setOwnV state (keyOf id) v),
                  [.opCall op id [getOwnV state (keyOf id), state, env]])
    else
      (.raise (mkHPE ("HyperProc.transform missing property \"" ++ keyOf id ++ "\"")
          (some op) id none none), [])
  | .AUGMENT =>
    if hasOwnV state (keyOf id) then
      (.raise (mkHPE ("HyperProc.augment property \"" ++ keyOf id ++ "\" already exists")
          (some op) id none none), [])
    else
      match callFn2 fn state env with
      | .error e => (.raise e, [.opCall op id [state, env]])
      | .ok v => (.next (setOwnV state (keyOf id) v), [.opCall op id [state, env]])
  | .CHAIN =>
    match fn with
    | .engine child =>
      match HyperProc.run child state with
      | (.error e, ctr) => (.raise e, ctr)
      | (.ok next, ctr) =>
        if isState next then (.next next, ctr)
        else (.raise (.typeError "HyperProc.chain must return an OBJECT as state"), ctr)
    | _ => (.raise (.typeError "fn.run is not a function"), [])
  | .NOOP =>
    match callFn2 fn state env with
    | .error e => (.raise e, [.opCall op id [state, env]])
    | .ok _ => (.next state, [.opCall op id [state, env]])
  | .other d =>
    (.raise (mkHPE ("Unknown Operation: " ++ symStr (.other d)) (some (.other d)) id
        (some state) none), [])

theorem interp_nil (env s : JSValue) : interp env [] s = (.done s, []) := by
  simp [interp]

theorem interp_cons (env : JSValue) (id : Option String) (op : OpTag) (fn : OpFn)
    (rest : List OpRec) (s : JSValue) :
    interp env (.mk id op fn :: rest) s =
      match step env (.mk id op fn) s with
      | (.raise e, tr) => (.raised e s id op, tr)
      | (.next s1, tr) => ((interp env rest s1).1, tr ++ (interp env rest s1).2) := by
  cases op
  case CHAIN =>
    cases fn with
    | engine child =>
      rcases hr : HyperProc.run child s with ⟨res, ctr⟩
      cases res with
      | error e => simp [interp, step, hr]
      | ok next =>
        by_cases hn : isState next
        · simp [interp, step, hr, hn]
        · simp [interp, step, hr, hn]
    | f2 f => simp [interp, step]
    | f3 f => simp [interp, step]
  all_goals (simp only [interp, step] <;> (repeat' split) <;> (try simp_all) <;>
    (try (rename_i heq; rcases heq with ⟨rfl, rfl⟩; simp)))

theorem isState_undefined : isState .undefined = false := by
  simp [isState, isNullV, typeofObject, isArrayV, protoOf]

theorem isState_setOwnV (s : JSValue) (k : String) (v : JSValue) (h : isState s = true) :
    isState (setOwnV s k v) = true := by
  cases s <;> simp_all [isState, setOwnV, isNullV, typeofObject, isArrayV, protoOf]

theorem refOf_setOwnV (s : JSValue) (k : String) (v : JSValue) :
    refOf (setOwnV s k v) = refOf s := by
  cases s <;> simp [refOf, setOwnV]

theorem errMessage_normalizeE (e : JSError) (stF : JSValue) (i : Option String) (o : OpTag) :
    errMessage (normalizeE e stF i o) = errMessage e := by
  cases e <;> simp [normalizeE, isHyperProcError, hpeFrom, mkHPE, errMessage]

theorem normalizeE_of_hpe (e : JSError) (stF : JSValue) (i : Option String) (o : OpTag)
    (h : isHyperProcError e = true) : normalizeE e stF i o = e := by
  simp [normalizeE, h]

theorem normalizeE_wrap (e : JSError) (stF : JSValue) (i : Option String) (o : OpTag)
    (h : isHyperProcError e = false) :
    normalizeE e stF i o = .hpe (errMessage e) (opString (some o)) i (some stF) (some e) := by
  simp [normalizeE, h, hpeFrom, mkHPE]

theorem isHyperProcError_normalizeE (e : JSError) (stF : JSValue) (i : Option String) (o : OpTag) :
    isHyperProcError (normalizeE e stF i o) = true := by
  cases e <;> simp [normalizeE, isHyperProcError, hpeFrom, mkHPE]

theorem step_next_isState (env : JSValue) (r : OpRec) (s s1 : JSValue) (tr : List Event)
    (hs : isState s = true) (h : step env r s = (.next s1, tr)) : isState s1 = true := by
  rcases r with ⟨id, op, fn⟩
  cases op <;> simp only [step] at h <;> (repeat' split at h) <;> (try simp_all) <;>
    (obtain ⟨rfl, rfl⟩ := h; exact isState_setOwnV _ _ _ hs)

theorem step_next_refOf (env : JSValue) (r : OpRec) (s s1 : JSValue) (tr : List Event)
    (hop1 : r.recOp ≠ .APPLY_TO) (hop2 : r.recOp ≠ .CHAIN)
    (h : step env r s = (.next s1, tr)) : refOf s1 = refOf s := by
  rcases r with ⟨id, op, fn⟩
  simp only [OpRec.recOp] at hop1 hop2
  cases op <;> simp only [step] at h <;> (repeat' split at h) <;> (try simp_all) <;>
    (obtain ⟨rfl, rfl⟩ := h; exact refOf_setOwnV _ _ _)

theorem interp_append (env : JSValue) (l1 l2 : List OpRec) (s : JSValue) :
    interp env (l1 ++ l2) s =
      match interp env l1 s with
      | (.done s1, tr) => ((interp env l2 s1).1, tr ++ (interp env l2 s1).2)
      | (.raised e st i o, tr) => (.raised e st i o, tr) := by
  induction l1 generalizing s with
  | nil => simp [interp_nil]
  | cons r rest ih =>
    rcases r with ⟨id, op, fn⟩
    rw [List.cons_append, interp_cons, interp_cons]
    rcases hstep : step env (.mk id op fn) s with ⟨sr, tr⟩
    cases sr with
    | raise e => simp
    | next s1 =>
      rcases hr : interp env rest s1 with ⟨lr, tr2⟩
      cases lr <;> simp [ih s1, hr, List.append_assoc]

theorem interp_done_isState (env : JSValue) (ops : List OpRec) (s s1 : JSValue)
    (tr : List Event) (hs : isState s = true) (h : interp env ops s = (.done s1, tr)) :
    isState s1 = true := by
  induction ops generalizing s tr with
  | nil => rw [interp_nil] at h; simp_all
  | cons r rest ih =>
    rcases r with ⟨id, op, fn⟩
    rw [interp_cons] at h
    rcases hstep : step env (.mk id op fn) s with ⟨sr, str⟩
    rw [hstep] at h
    cases sr with
    | raise e => simp at h
    | next s2 =>
      rcases hr : interp env rest s2 with ⟨lr, tr2⟩
      simp only [hr] at h
      cases lr with
      | done s3 =>
        simp at h
        obtain ⟨h1, _⟩ := h
        subst h1
        exact ih s2 tr2 (step_next_isState env _ s s2 str hs hstep) hr
      | raised e st i o => simp at h

theorem interp_raised_isState (env : JSValue) (ops : List OpRec) (s st : JSValue)
    (e : JSError) (i : Option String) (o : OpTag) (tr : List Event)
    (hs : isState s = true) (h : interp env ops s = (.raised e st i o, tr)) :
    isState st = true := by
  induction ops generalizing s tr with
  | nil => rw [interp_nil] at h; simp_all
  | cons r rest ih =>
    rcases r with ⟨id, op, fn⟩
    rw [interp_cons] at h
    rcases hstep : step env (.mk id op fn) s with ⟨sr, str⟩
    rw [hstep] at h
    cases sr with
    | raise e2 =>
      simp at h
      obtain ⟨⟨_, h2, _, _⟩, _⟩ := h
      rw [← h2]
      exact hs
    | next s2 =>
      rcases hr : interp env rest s2 with ⟨lr, tr2⟩
      simp only [hr] at h
      cases lr with
      | done s3 => simp at h
      | raised e2 st2 i2 o2 =>
        simp at h
        obtain ⟨⟨rfl, rfl, rfl, rfl⟩, _⟩ := h
        exact ih s2 tr2 (step_next_isState env _ s s2 str hs hstep) hr

theorem run_not_isState (env : JSValue) (f : JSError → JSValue → JSValue → Except JSError JSValue)
    (ops : List OpRec) (s : JSValue) (h : isState s = false) :
    HyperProc.run (.mk env f ops) s =
      (.error (.typeError "HyperProc.run expects an OBJECT as state"), []) := by
  simp [HyperProc.run, h]

theorem run_done (env : JSValue) (f : JSError → JSValue → JSValue → Except JSError JSValue)
    (ops : List OpRec) (s s1 : JSValue) (tr : List Event)
    (hs : isState s = true) (h : interp env ops s = (.done s1, tr)) :
    HyperProc.run (.mk env f ops) s = (.ok s1, tr) := by
  simp [HyperProc.run, hs, h]

theorem run_raised_throw (env : JSValue) (f : JSError → JSValue → JSValue → Except JSError JSValue)
    (ops : List OpRec) (s st : JSValue) (e e2 : JSError) (i : Option String) (o : OpTag)
    (tr : List Event) (hs : isState s = true) (h : interp env ops s = (.raised e st i o, tr))
    (hf : f (normalizeE e st i o) st env = .error e2) :
    HyperProc.run (.mk env f ops) s =
      (.error e2, tr ++ [.handlerCall (normalizeE e st i o) st env]) := by
  have hn : (if isHyperProcError e then e else hpeFrom e (some o) i (some st)) =
      normalizeE e st i o := rfl
  simp [HyperProc.run, hs, h, hn, hf]

theorem run_raised_undefined (env : JSValue)
    (f : JSError → JSValue → JSValue → Except JSError JSValue)
    (ops : List OpRec) (s st : JSValue) (e : JSError) (i : Option String) (o : OpTag)
    (tr : List Event) (hs : isState s = true) (h : interp env ops s = (.raised e st i o, tr))
    (hf : f (normalizeE e st i o) st env = .ok .undefined) :
    HyperProc.run (.mk env f ops) s =
      (.ok st, tr ++ [.handlerCall (normalizeE e st i o) st env]) := by
  have hstF := interp_raised_isState env ops s st e i o tr hs h
  have hn : (if isHyperProcError e then e else hpeFrom e (some o) i (some st)) =
      normalizeE e st i o := rfl
  simp [HyperProc.run, hs, h, hn, hf, hstF]

theorem run_raised_state (env : JSValue)
    (f : JSError → JSValue → JSValue → Except JSError JSValue)
    (ops : List OpRec) (s st r : JSValue) (e : JSError) (i : Option String) (o : OpTag)
    (tr : List Event) (hs : isState s = true) (h : interp env ops s = (.raised e st i o, tr))
    (hf : f (normalizeE e st i o) st env = .ok r) (hr : isState r = true) :
    HyperProc.run (.mk env f ops) s =
      (.ok r, tr ++ [.handlerCall (normalizeE e st i o) st env]) := by
  have hn : (if isHyperProcError e then e else hpeFrom e (some o) i (some st)) =
      normalizeE e st i o := rfl
  cases r
  case undefined => simp [isState_undefined] at hr
  all_goals simp [HyperProc.run, hs, h, hn, hf, hr]

theorem run_raised_bad (env : JSValue)
    (f : JSError → JSValue → JSValue → Except JSError JSValue)
    (ops : List OpRec) (s st r : JSValue) (e : JSError) (i : Option String) (o : OpTag)
    (tr : List Event) (hs : isState s = true) (h : interp env ops s = (.raised e st i o, tr))
    (hf : f (normalizeE e st i o) st env = .ok r) (hu : r ≠ .undefined)
    (hr : isState r = false) :
    HyperProc.run (.mk env f ops) s =
      (.error (.typeError "HyperProc.onError must return UNDEFINED or an OBJECT as state"),
       tr ++ [.handlerCall (normalizeE e st i o) st env]) := by
  have hn : (if isHyperProcError e then e else hpeFrom e (some o) i (some st)) =
      normalizeE e st i o := rfl
  cases r
  case undefined => exact absurd rfl hu
  all_goals simp [HyperProc.run, hs, h, hn, hf, hr]

/-!  Concrete sample values used by the concrete claims and witnesses.  -/

/-- A sample environment object. -/
def envA : JSValue := .object 100 false .base []

/-- A sample empty initial state `{}`. -/
def stA : JSValue := .object 0 false .base []

/-- The C4 pipeline: `augment("ok", () => 1).applyTo(() => throw).augment("after", () => 2)`
on a default-handler engine. -/
def c4engine : HyperProc :=
  (((HyperProc.init envA).augment "ok" (fun _ _ => .ok (.num 1))).applyTo
    (fun _ _ => .error (.error "Error" "boom"))).augment "after" (fun _ _ => .ok (.num 2))

/-!  Claims.  -/

/-- C7: `isState v` returns true if and only if `v` is an object, is not
null, is not an array, and its direct prototype is either the base object
prototype or null; being a total Lean function on all of `JSValue`, it is
pure and never fails on any input. -/
theorem C7_isState_characterization :
    ∀ v : JSValue, isState v = true ↔
      (typeofObject v = true ∧ isNullV v = false ∧ isArrayV v = false ∧
        (protoOf v = some .base ∨ protoOf v = some .nullProto)) := by
  intro v
  cases v <;> simp [isState, typeofObject, isNullV, isArrayV, protoOf]

/-- C8: for every constructed pipeline error, `toJSON` returns exactly
`{name, message, op, id, cause}`; `op` is the string `"UNDEFINED"` when no op
was supplied at construction; a present cause is reduced to exactly its name
and message; and the attached state never influences (nor appears in) the
serialized view. -/
theorem C8_toJSON_shape :
    (∀ (m : String) (op : Option OpTag) (id : Option String) (st : Option JSValue)
        (c : Option JSError),
        toJSON (mkHPE m op id st c) =
          some ⟨"HyperProcError", m, opString op, id,
                c.map (fun cc => ⟨errName cc, errMessage cc⟩)⟩) ∧
    opString none = "UNDEFINED" ∧
    (∀ (m : String) (op : Option OpTag) (id : Option String) (st : Option JSValue)
        (c : Option JSError), toJSON (mkHPE m op id st c) = toJSON (mkHPE m op id none c)) := by
  refine ⟨?_, rfl, ?_⟩ <;> intros <;> rfl

/-- C4: under the default (unoverridden) recovery handler, the pipeline
`augment("ok", () => 1)` then a throwing `applyTo` then `augment("after", () => 2)`
resolves `run({})` to `{ ok: 1 }`: the failing operation and everything queued
after it leave no effect on the returned state. -/
theorem C4_default_swallow :
    (HyperProc.run c4engine stA).1 = .ok (.object 0 false .base [("ok", .num 1)]) := by
  simp [c4engine, stA, envA, HyperProc.init, HyperProc.augment, HyperProc.applyTo,
    HyperProc.run, interp, isState, isNullV, typeofObject, isArrayV, protoOf, callFn2, callFn3,
    hasOwnV, hasOwn, setOwnV, setOwn, getOwnV, getOwn, keyOf, defaultOnError, mkHPE, hpeFrom,
    isHyperProcError, opString, symStr, symDesc, errMessage]

theorem run_raised_trace (env : JSValue)
    (f : JSError → JSValue → JSValue → Except JSError JSValue)
    (ops : List OpRec) (s st : JSValue) (e : JSError) (i : Option String) (o : OpTag)
    (tr : List Event) (hs : isState s = true) (h : interp env ops s = (.raised e st i o, tr)) :
    (HyperProc.run (.mk env f ops) s).2 =
      tr ++ [.handlerCall (normalizeE e st i o) st env] := by
  have hn : (if isHyperProcError e then e else hpeFrom e (some o) i (some st)) =
      normalizeE e st i o := rfl
  rcases hf : f (normalizeE e st i o) st env with e2 | r
  · rw [run_raised_throw env f ops s st e e2 i o tr hs h hf]
  · cases r
    case undefined => rw [run_raised_undefined env f ops s st e i o tr hs h hf]
    all_goals {
      rcases hr : isState _ with _ | _
      · rw [run_raised_bad env f ops s st _ e i o tr hs h hf (by simp) hr]
      · rw [run_raised_state env f ops s st _ e i o tr hs h hf hr]
    }

/-- C2: for every run on a valid initial state, the first raised error stops
the loop (appending further records changes neither the outcome nor the
trace), the error reaching the handler is normalized (wrapped into the
pipeline error type with the in-flight op tag, id and state unless it already
is one), the recovery handler is invoked exactly once with
`(normalizedError, stateAtFailure, env)` (the run trace ends with exactly that
one handler call), and a handler that throws makes `run` reject with that
error unchanged with no second recovery attempt. -/
theorem C2_error_protocol :
    (∀ (env : JSValue) (l1 l2 : List OpRec) (s st : JSValue) (e : JSError)
        (i : Option String) (o : OpTag) (tr : List Event),
        interp env l1 s = (.raised e st i o, tr) →
        interp env (l1 ++ l2) s = (.raised e st i o, tr)) ∧
    (∀ (e : JSError) (st : JSValue) (i : Option String) (o : OpTag),
        isHyperProcError e = false →
        normalizeE e st i o = .hpe (errMessage e) (opString (some o)) i (some st) (some e)) ∧
    (∀ (e : JSError) (st : JSValue) (i : Option String) (o : OpTag),
        isHyperProcError e = true → normalizeE e st i o = e) ∧
    (∀ (env : JSValue) (f : JSError → JSValue → JSValue → Except JSError JSValue)
        (ops : List OpRec) (s st : JSValue) (e : JSError) (i : Option String) (o : OpTag)
        (tr : List Event), isState s = true → interp env ops s = (.raised e st i o, tr) →
        (HyperProc.run (.mk env f ops) s).2 =
          tr ++ [.handlerCall (normalizeE e st i o) st env]) ∧
    (∀ (env : JSValue) (f : JSError → JSValue → JSValue → Except JSError JSValue)
        (ops : List OpRec) (s st : JSValue) (e e2 : JSError) (i : Option String) (o : OpTag)
        (tr : List Event), isState s = true → interp env ops s = (.raised e st i o, tr) →
        f (normalizeE e st i o) st env = .error e2 →
        HyperProc.run (.mk env f ops) s =
          (.error e2, tr ++ [.handlerCall (normalizeE e st i o) st env])) := by
  refine ⟨?_, ?_, ?_, ?_, ?_⟩
  · intro env l1 l2 s st e i o tr h
    rw [interp_append, h]
  · intro e st i o h
    exact normalizeE_wrap e st i o h
  · intro e st i o h
    exact normalizeE_of_hpe e st i o h
  · intro env f ops s st e i o tr hs h
    exact run_raised_trace env f ops s st e i o tr hs h
  · intro env f ops s st e e2 i o tr hs h hf
    exact run_raised_throw env f ops s st e e2 i o tr hs h hf

/-- C2 witness: a concrete one-record failing queue under a rethrowing
handler, checking each hypothesis at a concrete input. -/
theorem C2_witness :
    interp envA [.mk none .NOOP (.f2 (fun _ _ => .error (.error "Error" "boom")))] stA =
      (.raised (.error "Error" "boom") stA none .NOOP,
       [.opCall .NOOP none [stA, envA]]) ∧
    interp envA ([.mk none .NOOP (.f2 (fun _ _ => .error (.error "Error" "boom")))] ++
        [.mk (some "after") .AUGMENT (.f2 (fun _ _ => .ok (.num 2)))]) stA =
      (.raised (.error "Error" "boom") stA none .NOOP,
       [.opCall .NOOP none [stA, envA]]) ∧
    isState stA = true ∧
    bubbleOnError (normalizeE (.error "Error" "boom") stA none .NOOP) stA envA =
      .error (normalizeE (.error "Error" "boom") stA none .NOOP) ∧
    HyperProc.run (.mk envA bubbleOnError
        [.mk none .NOOP (.f2 (fun _ _ => .error (.error "Error" "boom")))]) stA =
      (.error (normalizeE (.error "Error" "boom") stA none .NOOP),
       [.opCall .NOOP none [stA, envA],
        .handlerCall (normalizeE (.error "Error" "boom") stA none .NOOP) stA envA]) := by
  have h1 : interp envA [.mk none .NOOP (.f2 (fun _ _ => .error (.error "Error" "boom")))] stA =
      (.raised (.error "Error" "boom") stA none .NOOP, [.opCall .NOOP none [stA, envA]]) := by
    simp [interp, callFn2, stA, envA]
  refine ⟨h1, C2_error_protocol.1 envA _ _ stA stA _ none .NOOP _ h1, by simp [isState, stA,
    isNullV, typeofObject, isArrayV, protoOf], rfl, ?_⟩
  have h5 := C2_error_protocol.2.2.2.2 envA bubbleOnError
    [.mk none .NOOP (.f2 (fun _ _ => .error (.error "Error" "boom")))] stA stA
    (.error "Error" "boom") (normalizeE (.error "Error" "boom") stA none .NOOP) none .NOOP
    [.opCall .NOOP none [stA, envA]]
    (by simp [isState, stA, isNullV, typeofObject, isArrayV, protoOf]) h1 rfl
  simpa using h5

/-- C3: whenever the recovery handler runs, a result of `undefined` makes
`run` resolve with the state at failure unchanged; a StateGuard-valid result
replaces the state; any other result makes `run` reject with the
`TypeError` "onError must return UNDEFINED or an OBJECT as state", and that
`TypeError` is not passed back through the handler (the trace still ends with
the single original handler call). -/
theorem C3_handler_result :
    (∀ (env : JSValue) (f : JSError → JSValue → JSValue → Except JSError JSValue)
        (ops : List OpRec) (s st : JSValue) (e : JSError) (i : Option String) (o : OpTag)
        (tr : List Event), isState s = true → interp env ops s = (.raised e st i o, tr) →
        f (normalizeE e st i o) st env = .ok .undefined →
        HyperProc.run (.mk env f ops) s =
          (.ok st, tr ++ [.handlerCall (normalizeE e st i o) st env])) ∧
    (∀ (env : JSValue) (f : JSError → JSValue → JSValue → Except JSError JSValue)
        (ops : List OpRec) (s st r : JSValue) (e : JSError) (i : Option String) (o : OpTag)
        (tr : List Event), isState s = true → interp env ops s = (.raised e st i o, tr) →
        f (normalizeE e st i o) st env = .ok r → isState r = true →
        HyperProc.run (.mk env f ops) s =
          (.ok r, tr ++ [.handlerCall (normalizeE e st i o) st env])) ∧
    (∀ (env : JSValue) (f : JSError → JSValue → JSValue → Except JSError JSValue)
        (ops : List OpRec) (s st r : JSValue) (e : JSError) (i : Option String) (o : OpTag)
        (tr : List Event), isState s = true → interp env ops s = (.raised e st i o, tr) →
        f (normalizeE e st i o) st env = .ok r → r ≠ .undefined → isState r = false →
        HyperProc.run (.mk env f ops) s =
          (.error (.typeError "HyperProc.onError must return UNDEFINED or an OBJECT as state"),
           tr ++ [.handlerCall (normalizeE e st i o) st env])) := by
  refine ⟨?_, ?_, ?_⟩
  · intro env f ops s st e i o tr hs h hf
    exact run_raised_undefined env f ops s st e i o tr hs h hf
  · intro env f ops s st r e i o tr hs h hf hr
    exact run_raised_state env f ops s st r e i o tr hs h hf hr
  · intro env f ops s st r e i o tr hs h hf hu hr
    exact run_raised_bad env f ops s st r e i o tr hs h hf hu hr

/-- C3 witness: the three handler results exercised on one concrete failing
pipeline. -/
theorem C3_witness :
    isState stA = true ∧
    interp envA [.mk (some "x") .TRANSFORM (.f3 (fun v _ _ => .ok v))] stA =
      (.raised (mkHPE "HyperProc.transform missing property \"x\"" (some .TRANSFORM)
          (some "x") none none) stA (some "x") .TRANSFORM, []) ∧
    HyperProc.run (.mk envA (fun _ _ _ => .ok .undefined)
        [.mk (some "x") .TRANSFORM (.f3 (fun v _ _ => .ok v))]) stA =
      (.ok stA, [.handlerCall (normalizeE (mkHPE "HyperProc.transform missing property \"x\""
          (some .TRANSFORM) (some "x") none none) stA (some "x") .TRANSFORM) stA envA]) ∧
    HyperProc.run (.mk envA (fun _ _ _ => .ok (.object 7 false .base [("r", .num 1)]))
        [.mk (some "x") .TRANSFORM (.f3 (fun v _ _ => .ok v))]) stA =
      (.ok (.object 7 false .base [("r", .num 1)]),
       [.handlerCall (normalizeE (mkHPE "HyperProc.transform missing property \"x\""
          (some .TRANSFORM) (some "x") none none) stA (some "x") .TRANSFORM) stA envA]) ∧
    HyperProc.run (.mk envA (fun _ _ _ => .ok (.num 123))
        [.mk (some "x") .TRANSFORM (.f3 (fun v _ _ => .ok v))]) stA =
      (.error (.typeError "HyperProc.onError must return UNDEFINED or an OBJECT as state"),
       [.handlerCall (normalizeE (mkHPE "HyperProc.transform missing property \"x\""
          (some .TRANSFORM) (some "x") none none) stA (some "x") .TRANSFORM) stA envA]) := by
  have hs : isState stA = true := by
    simp [isState, stA, isNullV, typeofObject, isArrayV, protoOf]
  have h1 : interp envA [.mk (some "x") .TRANSFORM (.f3 (fun v _ _ => .ok v))] stA =
      (.raised (mkHPE "HyperProc.transform missing property \"x\"" (some .TRANSFORM)
          (some "x") none none) stA (some "x") .TRANSFORM, []) := by
    simp [interp, stA, envA, hasOwnV, hasOwn, keyOf]
  refine ⟨hs, h1, ?_, ?_, ?_⟩
  · simpa using C3_handler_result.1 envA _ _ stA stA _ (some "x") .TRANSFORM [] hs h1 rfl
  · simpa using C3_handler_result.2.1 envA _ _ stA stA _ _ (some "x") .TRANSFORM [] hs h1 rfl
      (by simp [isState, isNullV, typeofObject, isArrayV, protoOf])
  · simpa using C3_handler_result.2.2 envA _ _ stA stA _ _ (some "x") .TRANSFORM [] hs h1 rfl
      (by simp) (by simp [isState, isNullV, typeofObject, isArrayV, protoOf])

/-- C6: in every run, a Transform record whose id is not an own property of
the current state raises the normalized pipeline error with op `TRANSFORM`
and that id without ever invoking the record's function (its trace is empty);
when the id is an own property, the function is called with
`(state[id], state, env)` and its result is written back into that field
before the loop continues. -/
theorem C6_transform_discipline :
    (∀ (env : JSValue) (id : String) (fn : OpFn) (rest : List OpRec) (s : JSValue),
        hasOwnV s id = false →
        interp env (.mk (some id) .TRANSFORM fn :: rest) s =
          (.raised (mkHPE ("HyperProc.transform missing property \"" ++ id ++ "\"")
              (some .TRANSFORM) (some id) none none) s (some id) .TRANSFORM, [])) ∧
    (∀ (env : JSValue) (id : String) (fn : OpFn) (rest : List OpRec) (s v : JSValue),
        hasOwnV s id = true → callFn3 fn (getOwnV s id) s env = .ok v →
        interp env (.mk (some id) .TRANSFORM fn :: rest) s =
          ((interp env rest (setOwnV s id v)).1,
           .opCall .TRANSFORM (some id) [getOwnV s id, s, env] ::
             (interp env rest (setOwnV s id v)).2)) := by
  constructor
  · intro env id fn rest s h
    rw [interp_cons]
    simp [step, keyOf, h]
  · intro env id fn rest s v h hv
    rw [interp_cons]
    simp [step, keyOf, h, hv]

/-- C6 witness: a missing-field transform raises without calling `fn`, and a
present-field transform calls `fn` with `(state[id], state, env)` and writes
back. -/
theorem C6_witness :
    hasOwnV stA "x" = false ∧
    interp envA [.mk (some "x") .TRANSFORM (.f3 (fun _ _ _ => .ok (.num 9)))] stA =
      (.raised (mkHPE "HyperProc.transform missing property \"x\"" (some .TRANSFORM)
          (some "x") none none) stA (some "x") .TRANSFORM, []) ∧
    hasOwnV (.object 3 false .base [("x", .num 1)]) "x" = true ∧
    interp envA [.mk (some "x") .TRANSFORM (.f3 (fun v _ _ => .ok v))]
        (.object 3 false .base [("x", .num 1)]) =
      (.done (.object 3 false .base [("x", .num 1)]),
       [.opCall .TRANSFORM (some "x") [.num 1, .object 3 false .base [("x", .num 1)], envA]]) := by
  have h1 : hasOwnV stA "x" = false := by simp [hasOwnV, hasOwn, stA]
  have h2 : hasOwnV (JSValue.object 3 false .base [("x", .num 1)]) "x" = true := by
    simp [hasOwnV, hasOwn]
  refine ⟨h1, ?_, h2, ?_⟩
  · simpa using C6_transform_discipline.1 envA "x" (.f3 (fun _ _ _ => .ok (.num 9))) [] stA h1
  · have h4 := C6_transform_discipline.2 envA "x" (.f3 (fun v _ _ => .ok v)) []
      (.object 3 false .base [("x", .num 1)]) (.num 1) h2
      (by simp [callFn3, getOwnV, getOwn])
    simpa [interp_nil, getOwnV, getOwn, setOwnV, setOwn] using h4

/-- C9: a Chain record delegates to the nested engine's `run` — which by
construction dispatches the nested engine's own environment to its operations
and its own recovery handler to its failures.  The step's outcome is exactly
the nested run's outcome: independent of the parent's environment, and on a
valid returned state the parent merely adopts it and continues; the parent's
handler contributes no event when the nested run resolved (even after an
internally recovered error). -/
theorem C9_chain_isolation :
    (∀ (env : JSValue) (child : HyperProc) (id : Option String) (rest : List OpRec)
        (s : JSValue) (e : JSError) (ctr : List Event),
        HyperProc.run child s = (.error e, ctr) →
        interp env (.mk id .CHAIN (.engine child) :: rest) s =
          (.raised e s id .CHAIN, ctr)) ∧
    (∀ (env : JSValue) (child : HyperProc) (id : Option String) (rest : List OpRec)
        (s next : JSValue) (ctr : List Event),
        HyperProc.run child s = (.ok next, ctr) → isState next = true →
        interp env (.mk id .CHAIN (.engine child) :: rest) s =
          ((interp env rest next).1, ctr ++ (interp env rest next).2)) ∧
    (∀ (env1 env2 : JSValue) (child : HyperProc) (id : Option String) (s : JSValue),
        interp env1 [.mk id .CHAIN (.engine child)] s =
          interp env2 [.mk id .CHAIN (.engine child)] s) ∧
    (∀ (envp : JSValue) (f : JSError → JSValue → JSValue → Except JSError JSValue)
        (child : HyperProc) (s next : JSValue) (ctr : List Event),
        isState s = true → HyperProc.run child s = (.ok next, ctr) → isState next = true →
        HyperProc.run (.mk envp f [.mk none .CHAIN (.engine child)]) s = (.ok next, ctr)) := by
  refine ⟨?_, ?_, ?_, ?_⟩
  · intro env child id rest s e ctr h
    rw [interp_cons]
    simp [step, h]
  · intro env child id rest s next ctr h hn
    rw [interp_cons]
    simp [step, h, hn]
  · intro env1 env2 child id s
    rw [interp_cons, interp_cons]
    have hse : step env1 (.mk id .CHAIN (.engine child)) s =
        step env2 (.mk id .CHAIN (.engine child)) s := by
      simp [step]
    rw [hse]
    rcases hstep : step env2 (.mk id .CHAIN (.engine child)) s with ⟨sr, str⟩
    cases sr <;> simp [interp_nil]
  · intro envp f child s next ctr hs h hn
    have h2 : interp envp [.mk none .CHAIN (.engine child)] s = (.done next, ctr) := by
      rw [interp_cons]
      simp [step, h, hn, interp_nil]
    exact run_done envp f _ s next ctr hs h2

/-- C9 witness: a concrete child whose internal failure is recovered by the
child's own handler; the parent (with a rethrowing handler and a different
environment) adopts the child's result, and its trace shows only the child's
handler call. -/
theorem C9_witness :
    isState stA = true ∧
    HyperProc.run (.mk (.object 200 false .base []) defaultOnError
        [.mk none .NOOP (.f2 (fun _ _ => .error (.error "Error" "child boom")))]) stA =
      (.ok stA,
       [.opCall .NOOP none [stA, .object 200 false .base []],
        .handlerCall (normalizeE (.error "Error" "child boom") stA none .NOOP) stA
          (.object 200 false .base [])]) ∧
    HyperProc.run (.mk envA bubbleOnError
        [.mk none .CHAIN (.engine (.mk (.object 200 false .base []) defaultOnError
          [.mk none .NOOP (.f2 (fun _ _ => .error (.error "Error" "child boom")))]))]) stA =
      (.ok stA,
       [.opCall .NOOP none [stA, .object 200 false .base []],
        .handlerCall (normalizeE (.error "Error" "child boom") stA none .NOOP) stA
          (.object 200 false .base [])]) := by
  have hs : isState stA = true := by
    simp [isState, stA, isNullV, typeofObject, isArrayV, protoOf]
  have hchild : HyperProc.run (.mk (.object 200 false .base []) defaultOnError
      [.mk none .NOOP (.f2 (fun _ _ => .error (.error "Error" "child boom")))]) stA =
      (.ok stA,
       [.opCall .NOOP none [stA, .object 200 false .base []],
        .handlerCall (normalizeE (.error "Error" "child boom") stA none .NOOP) stA
          (.object 200 false .base [])]) := by
    have h1 : interp (.object 200 false .base [])
        [.mk none .NOOP (.f2 (fun _ _ => .error (.error "Error" "child boom")))] stA =
        (.raised (.error "Error" "child boom") stA none .NOOP,
         [.opCall .NOOP none [stA, .object 200 false .base []]]) := by
      simp [interp, callFn2]
    simpa using run_raised_state (.object 200 false .base []) defaultOnError _ stA stA stA
      (.error "Error" "child boom") none .NOOP _ hs h1 rfl hs
  exact ⟨hs, hchild, C9_chain_isolation.2.2.2 envA bubbleOnError _ stA stA _ hs hchild hs⟩

/-- C5: a bubbling-variant child (whose handler rethrows the normalized error)
queued as a Chain record in a parent whose own handler rethrows makes the
parent's `run` reject, and the rejection carries the original failure's
message intact. -/
theorem C5_bubbling_chain :
    ∀ (envc envp s s1 st : JSValue) (cops pre rest : List OpRec) (e : JSError)
      (i : Option String) (o : OpTag) (tr trp : List Event),
      isState s = true →
      interp envp pre s = (.done s1, trp) →
      interp envc cops s1 = (.raised e st i o, tr) →
      (HyperProc.run (.mk envp bubbleOnError
          (pre ++ .mk none .CHAIN (.engine (.mk envc bubbleOnError cops)) :: rest)) s).1 =
        .error (normalizeE e st i o) ∧
      errMessage (normalizeE e st i o) = errMessage e := by
  intro envc envp s s1 st cops pre rest e i o tr trp hs hpre hc
  have hs1 : isState s1 = true := interp_done_isState envp pre s s1 trp hs hpre
  have hchild : HyperProc.run (.mk envc bubbleOnError cops) s1 =
      (.error (normalizeE e st i o),
       tr ++ [.handlerCall (normalizeE e st i o) st envc]) :=
    run_raised_throw envc bubbleOnError cops s1 st e _ i o tr hs1 hc rfl
  have hhead : interp envp (.mk none .CHAIN (.engine (.mk envc bubbleOnError cops)) :: rest) s1 =
      (.raised (normalizeE e st i o) s1 none .CHAIN,
       tr ++ [.handlerCall (normalizeE e st i o) st envc]) := by
    rw [interp_cons]
    simp [step, hchild]
  have hloop : interp envp
      (pre ++ .mk none .CHAIN (.engine (.mk envc bubbleOnError cops)) :: rest) s =
      (.raised (normalizeE e st i o) s1 none .CHAIN,
       trp ++ (tr ++ [.handlerCall (normalizeE e st i o) st envc])) := by
    rw [interp_append, hpre]
    simp [hhead]
  have hnorm : normalizeE (normalizeE e st i o) s1 none .CHAIN = normalizeE e st i o :=
    normalizeE_of_hpe _ _ _ _ (isHyperProcError_normalizeE e st i o)
  have hf : bubbleOnError (normalizeE (normalizeE e st i o) s1 none .CHAIN) s1 envp =
      .error (normalizeE e st i o) := by
    simp [bubbleOnError, hnorm]
  have hrun := run_raised_throw envp bubbleOnError
    (pre ++ .mk none .CHAIN (.engine (.mk envc bubbleOnError cops)) :: rest) s s1
    (normalizeE e st i o) (normalizeE e st i o) none .CHAIN _ hs hloop hf
  rw [hrun]
  exact ⟨rfl, errMessage_normalizeE e st i o⟩

/-- C5 witness: a concrete bubbling child failing with "boom" inside a
bubbling parent; the parent's run rejects and the message survives. -/
theorem C5_witness :
    isState stA = true ∧
    interp envA ([] : List OpRec) stA = (.done stA, []) ∧
    interp (.object 200 false .base [])
        [.mk none .NOOP (.f2 (fun _ _ => .error (.error "Error" "boom")))] stA =
      (.raised (.error "Error" "boom") stA none .NOOP,
       [.opCall .NOOP none [stA, .object 200 false .base []]]) ∧
    (HyperProc.run (.mk envA bubbleOnError
        ([] ++ .mk none .CHAIN (.engine (.mk (.object 200 false .base []) bubbleOnError
          [.mk none .NOOP (.f2 (fun _ _ => .error (.error "Error" "boom")))])) :: [])) stA).1 =
      .error (normalizeE (.error "Error" "boom") stA none .NOOP) ∧
    errMessage (normalizeE (.error "Error" "boom") stA none .NOOP) = "boom" := by
  have hs : isState stA = true := by
    simp [isState, stA, isNullV, typeofObject, isArrayV, protoOf]
  have hpre : interp envA ([] : List OpRec) stA = (.done stA, []) := interp_nil envA stA
  have hc : interp (.object 200 false .base [])
      [.mk none .NOOP (.f2 (fun _ _ => .error (.error "Error" "boom")))] stA =
      (.raised (.error "Error" "boom") stA none .NOOP,
       [.opCall .NOOP none [stA, .object 200 false .base []]]) := by
    simp [interp, callFn2]
  have h5 := C5_bubbling_chain (.object 200 false .base []) envA stA stA stA
    [.mk none .NOOP (.f2 (fun _ _ => .error (.error "Error" "boom")))] [] []
    (.error "Error" "boom") none .NOOP _ [] hs hpre hc
  exact ⟨hs, hpre, hc, h5.1, by rw [errMessage_normalizeE]; rfl⟩

/-- C1 counterexample: an `applyTo` returning the non-state `123` on a
default-handler engine.  The shape violation is thrown as a `TypeError` inside
the loop, but `run({})` RESOLVES (it does not reject) and the violation IS
passed through the recovery handler, wrapped as the normalized error — so an
`applyTo`-result shape violation is neither "never passed through the recovery
handler" nor "fatal to that run call". -/
theorem C1_counterexample :
    HyperProc.run ((HyperProc.init envA).applyTo (fun _ _ => .ok (.num 123))) stA =
      (.ok stA,
       [.opCall .APPLY_TO none [stA, envA],
        .handlerCall (hpeFrom (.typeError "HyperProc.applyTo must return an OBJECT as state")
          (some .APPLY_TO) none (some stA)) stA envA]) := by
  simp [HyperProc.init, HyperProc.applyTo, HyperProc.run, interp, stA, envA, isState, isNullV,
    typeofObject, isArrayV, protoOf, callFn2, defaultOnError, hpeFrom, mkHPE, isHyperProcError,
    opString, symStr, symDesc, errMessage]

/-- C1 amended: an invalid initial state and an invalid recovery-handler
result are raised as plain `TypeError`s, never passed through the recovery
handler, and fatal to that run call; a `chain` argument that is not an engine
is raised as a plain `TypeError` synchronously at `chain()` call time (before
any run); but an `applyTo` or `chain` result failing the state predicate is
thrown inside the loop, normalized into the pipeline error type and routed
through the recovery handler like any other operation failure — with the
default handler the run resolves. -/
theorem C1_amended :
    (∀ (env : JSValue) (f : JSError → JSValue → JSValue → Except JSError JSValue)
        (ops : List OpRec) (s : JSValue), isState s = false →
        HyperProc.run (.mk env f ops) s =
          (.error (.typeError "HyperProc.run expects an OBJECT as state"), [])) ∧
    (∀ (env : JSValue) (f : JSError → JSValue → JSValue → Except JSError JSValue)
        (ops : List OpRec) (s st r : JSValue) (e : JSError) (i : Option String) (o : OpTag)
        (tr : List Event), isState s = true → interp env ops s = (.raised e st i o, tr) →
        f (normalizeE e st i o) st env = .ok r → r ≠ .undefined → isState r = false →
        HyperProc.run (.mk env f ops) s =
          (.error (.typeError "HyperProc.onError must return UNDEFINED or an OBJECT as state"),
           tr ++ [.handlerCall (normalizeE e st i o) st env])) ∧
    (∀ (hp : HyperProc) (v : JSValue),
        HyperProc.chain hp (.value v) =
          .error (.typeError "Can only chain to an instance of HyperProc")) ∧
    (∀ (env : JSValue) (id : Option String) (fn : OpFn) (rest : List OpRec) (s next : JSValue),
        callFn2 fn s env = .ok next → isState next = false →
        interp env (.mk id .APPLY_TO fn :: rest) s =
          (.raised (.typeError "HyperProc.applyTo must return an OBJECT as state") s id
            .APPLY_TO, [.opCall .APPLY_TO id [s, env]])) ∧
    (∀ (env : JSValue) (id : Option String) (child : HyperProc) (rest : List OpRec)
        (s next : JSValue) (ctr : List Event),
        HyperProc.run child s = (.ok next, ctr) → isState next = false →
        interp env (.mk id .CHAIN (.engine child) :: rest) s =
          (.raised (.typeError "HyperProc.chain must return an OBJECT as state") s id
            .CHAIN, ctr)) ∧
    (∀ (env : JSValue) (ops : List OpRec) (s st : JSValue) (e : JSError) (i : Option String)
        (o : OpTag) (tr : List Event), isState s = true →
        interp env ops s = (.raised e st i o, tr) → isHyperProcError e = false →
        HyperProc.run (.mk env defaultOnError ops) s =
          (.ok st, tr ++ [.handlerCall (hpeFrom e (some o) i (some st)) st env])) := by
  refine ⟨?_, ?_, ?_, ?_, ?_, ?_⟩
  · intro env f ops s h
    exact run_not_isState env f ops s h
  · intro env f ops s st r e i o tr hs h hf hu hr
    exact run_raised_bad env f ops s st r e i o tr hs h hf hu hr
  · intro hp v
    cases hp
    rfl
  · intro env id fn rest s next h hn
    rw [interp_cons]
    simp [step, h, hn]
  · intro env id child rest s next ctr h hn
    rw [interp_cons]
    simp [step, h, hn]
  · intro env ops s st e i o tr hs h he
    have hst : isState st = true := interp_raised_isState env ops s st e i o tr hs h
    have hw : normalizeE e st i o = hpeFrom e (some o) i (some st) := by
      simp [normalizeE, he]
    have hr := run_raised_state env defaultOnError ops s st st e i o tr hs h rfl hst
    rw [hr, hw]

/-- C1 amended witness: each amended branch exercised at a concrete input. -/
theorem C1_amended_witness :
    isState (.num 5) = false ∧
    HyperProc.run (.mk envA defaultOnError []) (.num 5) =
      (.error (.typeError "HyperProc.run expects an OBJECT as state"), []) ∧
    HyperProc.chain (.mk envA defaultOnError []) (.value (.num 5)) =
      .error (.typeError "Can only chain to an instance of HyperProc") ∧
    callFn2 (.f2 (fun _ _ => .ok (.num 123))) stA envA = .ok (.num 123) ∧
    isState (.num 123) = false ∧
    interp envA [.mk none .APPLY_TO (.f2 (fun _ _ => .ok (.num 123)))] stA =
      (.raised (.typeError "HyperProc.applyTo must return an OBJECT as state") stA none
        .APPLY_TO, [.opCall .APPLY_TO none [stA, envA]]) ∧
    HyperProc.run (.mk envA defaultOnError [.mk none .APPLY_TO (.f2 (fun _ _ => .ok (.num 123)))])
        stA =
      (.ok stA,
       [.opCall .APPLY_TO none [stA, envA],
        .handlerCall (hpeFrom (.typeError "HyperProc.applyTo must return an OBJECT as state")
          (some .APPLY_TO) none (some stA)) stA envA]) := by
  have hs : isState stA = true := by
    simp [isState, stA, isNullV, typeofObject, isArrayV, protoOf]
  have hnum : isState (JSValue.num 5) = false := by
    simp [isState, isNullV, typeofObject, isArrayV, protoOf]
  have h123 : isState (JSValue.num 123) = false := by
    simp [isState, isNullV, typeofObject, isArrayV, protoOf]
  have hcall : callFn2 (.f2 (fun _ _ => .ok (.num 123))) stA envA = .ok (.num 123) := rfl
  have h4 := C1_amended.2.2.2.1 envA none (.f2 (fun _ _ => .ok (.num 123))) [] stA (.num 123)
    hcall h123
  refine ⟨hnum, C1_amended.1 envA defaultOnError [] (.num 5) hnum,
    C1_amended.2.2.1 (.mk envA defaultOnError []) (.num 5), hcall, h123, h4, ?_⟩
  have h6 := C1_amended.2.2.2.2.2 envA [.mk none .APPLY_TO (.f2 (fun _ _ => .ok (.num 123)))]
    stA stA (.typeError "HyperProc.applyTo must return an OBJECT as state") none .APPLY_TO
    [.opCall .APPLY_TO none [stA, envA]] hs h4 rfl
  simpa using h6

theorem interp_done_refOf (env : JSValue) (ops : List OpRec) (s s1 : JSValue) (tr : List Event)
    (hops : ∀ r ∈ ops, r.recOp ≠ .APPLY_TO ∧ r.recOp ≠ .CHAIN)
    (h : interp env ops s = (.done s1, tr)) : refOf s1 = refOf s := by
  induction ops generalizing s tr with
  | nil => rw [interp_nil] at h; simp_all
  | cons r rest ih =>
    rcases r with ⟨id, op, fn⟩
    rw [interp_cons] at h
    rcases hstep : step env (.mk id op fn) s with ⟨sr, str⟩
    rw [hstep] at h
    cases sr with
    | raise e => simp at h
    | next s2 =>
      rcases hr : interp env rest s2 with ⟨lr, tr2⟩
      simp only [hr] at h
      cases lr with
      | raised e2 st2 i2 o2 => simp at h
      | done s3 =>
        simp at h
        obtain ⟨h1, _⟩ := h
        subst h1
        have hh := hops (.mk id op fn) (by simp)
        have h2 := step_next_refOf env (.mk id op fn) s s2 str hh.1 hh.2 hstep
        have h3 := ih s2 tr2 (fun q hm => hops q (by simp [hm])) hr
        rw [h3, h2]

/-- The C10 counterexample engine: a single Transform record (no ApplyTo, no
Chain) with a recovery handler that substitutes a fresh object. -/
def c10engine : HyperProc :=
  .mk envA (fun _ _ _ => .ok (.object 99 false .base [("a", .num 1)]))
    [.mk (some "x") .TRANSFORM (.f3 (fun v _ _ => .ok v))]

/-- C10 counterexample: `c10engine` has no ApplyTo and no Chain records and is
run on the valid state object tagged 1; the run completes without an
unrecovered error (it resolves), yet the resolved value is the handler's fresh
object 99 — not the same object reference that was passed in. -/
theorem C10_counterexample :
    (∀ r ∈ c10engine.ops, r.recOp ≠ .APPLY_TO ∧ r.recOp ≠ .CHAIN) ∧
    isState (.object 1 false .base []) = true ∧
    (HyperProc.run c10engine (.object 1 false .base [])).1 =
      .ok (.object 99 false .base [("a", .num 1)]) ∧
    refOf (.object 99 false .base [("a", .num 1)]) ≠ refOf (.object 1 false .base []) := by
  refine ⟨by simp [c10engine, HyperProc.ops, OpRec.recOp], by simp [isState, isNullV,
    typeofObject, isArrayV, protoOf], ?_, by simp [refOf]⟩
  simp [c10engine, envA, HyperProc.run, interp, isState, isNullV, typeofObject, isArrayV,
    protoOf, callFn3, hasOwnV, hasOwn, keyOf, mkHPE, hpeFrom, isHyperProcError, opString,
    symStr, symDesc, errMessage]

/-- C10 amended: for every valid initial state and every engine whose queue
contains no ApplyTo and no Chain records, a run in which the loop raises no
error resolves with the very same object reference that was passed in
(Transform and Augment write in place, Noop leaves the state untouched), and
an engine with an empty queue resolves `run(s)` to `s` itself.  (A recovered
error may instead resolve to whatever object the handler returned.) -/
theorem C10_amended :
    (∀ (env : JSValue) (f : JSError → JSValue → JSValue → Except JSError JSValue)
        (ops : List OpRec) (s s1 : JSValue) (tr : List Event), isState s = true →
        (∀ r ∈ ops, r.recOp ≠ .APPLY_TO ∧ r.recOp ≠ .CHAIN) →
        interp env ops s = (.done s1, tr) →
        HyperProc.run (.mk env f ops) s = (.ok s1, tr) ∧ refOf s1 = refOf s) ∧
    (∀ (env : JSValue) (f : JSError → JSValue → JSValue → Except JSError JSValue)
        (s : JSValue), isState s = true → HyperProc.run (.mk env f []) s = (.ok s, [])) := by
  constructor
  · intro env f ops s s1 tr hs hops h
    exact ⟨run_done env f ops s s1 tr hs h, interp_done_refOf env ops s s1 tr hops h⟩
  · intro env f s hs
    exact run_done env f [] s s [] hs (interp_nil env s)

/-- C10 amended witness: a Transform-and-Noop queue run on the object tagged
5 keeps that exact reference, and the empty queue returns the input itself. -/
theorem C10_witness :
    isState (.object 5 false .base [("x", .num 1)]) = true ∧
    (∀ r ∈ [OpRec.mk (some "x") .TRANSFORM (.f3 (fun v _ _ => .ok v)),
            OpRec.mk none .NOOP (.f2 (fun _ _ => .ok (.num 0)))],
        r.recOp ≠ OpTag.APPLY_TO ∧ r.recOp ≠ OpTag.CHAIN) ∧
    interp envA [OpRec.mk (some "x") .TRANSFORM (.f3 (fun v _ _ => .ok v)),
        OpRec.mk none .NOOP (.f2 (fun _ _ => .ok (.num 0)))]
        (.object 5 false .base [("x", .num 1)]) =
      (.done (.object 5 false .base [("x", .num 1)]),
       [.opCall .TRANSFORM (some "x")
          [.num 1, .object 5 false .base [("x", .num 1)], envA],
        .opCall .NOOP none [.object 5 false .base [("x", .num 1)], envA]]) ∧
    HyperProc.run (.mk envA defaultOnError
        [OpRec.mk (some "x") .TRANSFORM (.f3 (fun v _ _ => .ok v)),
         OpRec.mk none .NOOP (.f2 (fun _ _ => .ok (.num 0)))])
        (.object 5 false .base [("x", .num 1)]) =
      (.ok (.object 5 false .base [("x", .num 1)]),
       [.opCall .TRANSFORM (some "x")
          [.num 1, .object 5 false .base [("x", .num 1)], envA],
        .opCall .NOOP none [.object 5 false .base [("x", .num 1)], envA]]) ∧
    refOf (.object 5 false .base [("x", .num 1)]) =
      refOf (.object 5 false .base [("x", .num 1)]) ∧
    HyperProc.run (.mk envA defaultOnError []) (.object 5 false .base [("x", .num 1)]) =
      (.ok (.object 5 false .base [("x", .num 1)]), []) := by
  have hs : isState (JSValue.object 5 false .base [("x", .num 1)]) = true := by
    simp [isState, isNullV, typeofObject, isArrayV, protoOf]
  have hops : ∀ r ∈ [OpRec.mk (some "x") .TRANSFORM (.f3 (fun v _ _ => .ok v)),
      OpRec.mk none .NOOP (.f2 (fun _ _ => .ok (.num 0)))],
      r.recOp ≠ OpTag.APPLY_TO ∧ r.recOp ≠ OpTag.CHAIN := by
    simp [OpRec.recOp]
  have hi : interp envA [OpRec.mk (some "x") .TRANSFORM (.f3 (fun v _ _ => .ok v)),
      OpRec.mk none .NOOP (.f2 (fun _ _ => .ok (.num 0)))]
      (.object 5 false .base [("x", .num 1)]) =
      (.done (.object 5 false .base [("x", .num 1)]),
       [.opCall .TRANSFORM (some "x")
          [.num 1, .object 5 false .base [("x", .num 1)], envA],
        .opCall .NOOP none [.object 5 false .base [("x", .num 1)], envA]]) := by
    simp [interp, callFn2, callFn3, hasOwnV, hasOwn, getOwnV, getOwn, setOwnV, setOwn, keyOf,
      envA]
  have h1 := C10_amended.1 envA defaultOnError _ _ _ _ hs hops hi
  exact ⟨hs, hops, hi, h1.1, h1.2, C10_amended.2 envA defaultOnError _ hs⟩

end HyperProcModel
